import Mathlib

/-!
# The API Extension resource

A shallow embedding of `src/commercetools/resource_api_extension.go`: the
validation function of the destination type, the decoders of the destination,
of its authentication and of the triggers, and the read and update handlers.

Conventions of the embedding.

* A Go `interface{}` is a `Value`; a `map[string]interface{}` is an association
  list read with `mapIndex`; indexing a missing key gives `none` (the nil
  interface) and a failed type assertion `x.(T)` is the outcome `panic`.
* A Go result `(value, error)` is an `Outcome`: `ok v` stands for `(v, nil)`,
  `error e` for `(nil, e)`.
* An error built by `fmt.Errorf` is kept as its format string and operands.
* Functions of the Go library, of the Terraform SDK, of the platform client and
  helpers of the provider defined in other files are parameters of the
  definitions that call them.
-/

namespace ApiExtension

/-! ## Go values -/

/-- A dynamically typed Go value, as stored in configuration maps and lists. -/
inductive Value where
  | null
  | str (s : String)
  | int (n : Int)
  | bool (b : Bool)
  | list (xs : List Value)
  | map (m : List (String × Value))

mutual
/-- Decidable equality of values. -/
def Value.decEq : (a b : Value) → Decidable (a = b)
  | .null, .null => isTrue rfl
  | .str a, .str b =>
    if h : a = b then isTrue (congrArg Value.str h) else isFalse (fun e => h (Value.str.inj e))
  | .int a, .int b =>
    if h : a = b then isTrue (congrArg Value.int h) else isFalse (fun e => h (Value.int.inj e))
  | .bool a, .bool b =>
    if h : a = b then isTrue (congrArg Value.bool h) else isFalse (fun e => h (Value.bool.inj e))
  | .list a, .list b =>
    match Value.decEqList a b with
    | isTrue h => isTrue (congrArg Value.list h)
    | isFalse h => isFalse (fun e => h (Value.list.inj e))
  | .map a, .map b =>
    match Value.decEqEntries a b with
    | isTrue h => isTrue (congrArg Value.map h)
    | isFalse h => isFalse (fun e => h (Value.map.inj e))
  | .null, .str _ => isFalse (fun h => Value.noConfusion h)
  | .null, .int _ => isFalse (fun h => Value.noConfusion h)
  | .null, .bool _ => isFalse (fun h => Value.noConfusion h)
  | .null, .list _ => isFalse (fun h => Value.noConfusion h)
  | .null, .map _ => isFalse (fun h => Value.noConfusion h)
  | .str _, .null => isFalse (fun h => Value.noConfusion h)
  | .str _, .int _ => isFalse (fun h => Value.noConfusion h)
  | .str _, .bool _ => isFalse (fun h => Value.noConfusion h)
  | .str _, .list _ => isFalse (fun h => Value.noConfusion h)
  | .str _, .map _ => isFalse (fun h => Value.noConfusion h)
  | .int _, .null => isFalse (fun h => Value.noConfusion h)
  | .int _, .str _ => isFalse (fun h => Value.noConfusion h)
  | .int _, .bool _ => isFalse (fun h => Value.noConfusion h)
  | .int _, .list _ => isFalse (fun h => Value.noConfusion h)
  | .int _, .map _ => isFalse (fun h => Value.noConfusion h)
  | .bool _, .null => isFalse (fun h => Value.noConfusion h)
  | .bool _, .str _ => isFalse (fun h => Value.noConfusion h)
  | .bool _, .int _ => isFalse (fun h => Value.noConfusion h)
  | .bool _, .list _ => isFalse (fun h => Value.noConfusion h)
  | .bool _, .map _ => isFalse (fun h => Value.noConfusion h)
  | .list _, .null => isFalse (fun h => Value.noConfusion h)
  | .list _, .str _ => isFalse (fun h => Value.noConfusion h)
  | .list _, .int _ => isFalse (fun h => Value.noConfusion h)
  | .list _, .bool _ => isFalse (fun h => Value.noConfusion h)
  | .list _, .map _ => isFalse (fun h => Value.noConfusion h)
  | .map _, .null => isFalse (fun h => Value.noConfusion h)
  | .map _, .str _ => isFalse (fun h => Value.noConfusion h)
  | .map _, .int _ => isFalse (fun h => Value.noConfusion h)
  | .map _, .bool _ => isFalse (fun h => Value.noConfusion h)
  | .map _, .list _ => isFalse (fun h => Value.noConfusion h)
/-- Decidable equality of lists of values. -/
def Value.decEqList : (a b : List Value) → Decidable (a = b)
  | [], [] => isTrue rfl
  | [], _ :: _ => isFalse (fun h => List.noConfusion h)
  | _ :: _, [] => isFalse (fun h => List.noConfusion h)
  | x :: xs, y :: ys =>
    match Value.decEq x y, Value.decEqList xs ys with
    | isTrue h, isTrue t => isTrue (by rw [h, t])
    | isFalse h, _ => isFalse (fun e => h (List.cons.inj e).1)
    | _, isFalse t => isFalse (fun e => t (List.cons.inj e).2)
/-- Decidable equality of the entry lists of maps. -/
def Value.decEqEntries : (a b : List (String × Value)) → Decidable (a = b)
  | [], [] => isTrue rfl
  | [], _ :: _ => isFalse (fun h => List.noConfusion h)
  | _ :: _, [] => isFalse (fun h => List.noConfusion h)
  | (k, x) :: xs, (l, y) :: ys =>
    if hk : k = l then
      match Value.decEq x y, Value.decEqEntries xs ys with
      | isTrue h, isTrue t => isTrue (by rw [hk, h, t])
      | isFalse h, _ => isFalse (fun e => h (Prod.mk.inj (List.cons.inj e).1).2)
      | _, isFalse t => isFalse (fun e => t (List.cons.inj e).2)
    else isFalse (fun e => hk (Prod.mk.inj (List.cons.inj e).1).1)
end

instance : DecidableEq Value := Value.decEq

/-- A Go `map[string]interface{}`, as the list of its entries. Two maps are
compared through their entry lists, where the SDK compares with
`reflect.DeepEqual`: one map is always written with its entries in one order. -/
abbrev GoMap := List (String × Value)

/-- The Go expression `v, ok := m[k]`: the value stored under `k`, or `none`
when the key is absent. -/
def mapIndex : GoMap → String → Option Value
  | [], _ => none
  | (k, v) :: rest, key => if k = key then some v else mapIndex rest key

/-- A Go error value. -/
inductive GoError where
  /-- The error `fmt.Errorf(format, args...)`. -/
  | errorf (format : String) (args : List Value)
  /-- A `platform.ErrorResponse` of the platform client. -/
  | errorResponse (statusCode : Int) (message : String)
  /-- Any other error value. -/
  | other (message : String)
deriving DecidableEq

/-- What a call of a Go function that returns `(α, error)` does. -/
inductive Outcome (α : Type) where
  /-- The call returns the value and a nil error. -/
  | ok (a : α)
  /-- The call returns the nil value and the error. -/
  | error (e : GoError)
  /-- The call panics, on a failed type assertion. -/
  | panic
deriving DecidableEq

/-- Go's `strings.ToLower`, which maps every rune of the string through
`unicode.ToLower`; the rune mapping is the parameter `unicodeToLower`. -/
def stringsToLower (unicodeToLower : Char → Char) (s : String) : String :=
  ⟨s.data.map unicodeToLower⟩

/-! ## Platform types -/

/-- The interface `platform.ExtensionHttpDestinationAuthentication` with its two
implementations; the nil interface is `none` of the option type. -/
inductive ExtensionHttpDestinationAuthentication where
  | authorizationHeader (HeaderValue : String)
  | azureFunctions (Key : String)
deriving DecidableEq

/-- The struct `platform.ExtensionHttpDestination`. Its field `Authentication`
receives `&auth`, a pointer to a variable of interface type: `none` is the nil
pointer, `some none` a pointer to the nil interface and `some (some a)` a
pointer to the authentication `a`. -/
structure ExtensionHttpDestination where
  Url : String
  Authentication : Option (Option ExtensionHttpDestinationAuthentication)
deriving DecidableEq

/-- The struct `platform.ExtensionAWSLambdaDestination`. -/
structure ExtensionAWSLambdaDestination where
  Arn : String
  AccessKey : String
  AccessSecret : String
deriving DecidableEq

/-- The interface `platform.Destination` with the two implementations the
decoder produces. -/
inductive Destination where
  | http (dest : ExtensionHttpDestination)
  | awsLambda (dest : ExtensionAWSLambdaDestination)
deriving DecidableEq

/-- The struct `platform.ExtensionTrigger`; `ExtensionResourceTypeId` and
`ExtensionAction` are string types. -/
structure ExtensionTrigger where
  ResourceTypeId : String
  Actions : List String
deriving DecidableEq

/-- The implementations of `platform.ExtensionUpdateAction` the update handler
builds; `Key` and `TimeoutInMs` are pointer fields. -/
inductive ExtensionUpdateAction where
  | setKey (Key : Option String)
  | changeTriggers (Triggers : List ExtensionTrigger)
  | changeDestination (Destination : Destination)
  | setTimeoutInMs (TimeoutInMs : Option Int)
deriving DecidableEq

/-- The struct `platform.ExtensionUpdate`. -/
structure ExtensionUpdate where
  Version : Int
  Actions : List ExtensionUpdateAction
deriving DecidableEq

/-- The struct `platform.Extension`, as far as the handlers read it. -/
structure Extension where
  ID : String
  Version : Int
  Key : Option String
  Destination : Destination
  Triggers : List ExtensionTrigger
  TimeoutInMs : Option Int
deriving DecidableEq

/-! ## Resource data -/

/-- The attributes of the resource, with the Go types that the schema of
`resourceAPIExtension` gives them: `key` is a TypeString, `destination` a
TypeMap, `trigger` a TypeList, `timeout_in_ms` and `version` are TypeInt. -/
structure Attrs where
  key : String
  destination : GoMap
  trigger : List Value
  timeout_in_ms : Int
  version : Int
deriving DecidableEq

/-- The `*schema.ResourceData` a handler receives: the id, the attributes of the
prior state and the attributes now wanted. `d.Get(k)` reads `new`, and
`d.HasChange(k)` compares `old` with `new`. -/
structure ResourceData where
  id : String
  old : Attrs
  new : Attrs
deriving DecidableEq

/-- The method `d.SetId`. -/
def ResourceData.SetId (d : ResourceData) (id : String) : ResourceData :=
  { d with id := id }

/-- The Go values that `resourceAPIExtensionRead` hands to `d.Set`. -/
inductive SetArg where
  | int (n : Int)
  | stringPtr (s : Option String)
  | destination (dest : Destination)
  | triggers (ts : List ExtensionTrigger)
  | intPtr (n : Option Int)
deriving DecidableEq

/-- The calls out of the file that the handlers make: `d.Set` of the SDK and
the get and update requests of the platform client, which answer with
`(*platform.Extension, error)` and move the remote side, of state `σ`. -/
structure Sdk (σ : Type) where
  set : ResourceData → String → SetArg → ResourceData
  extensionGet : String → σ → Except GoError (Option Extension) × σ
  extensionUpdate : String → ExtensionUpdate → σ → Except GoError (Option Extension) × σ

/-! ## The functions of the file -/

/-- Lines 107-119, `validateDestinationType`: the pair `(warns, errs)`. -/
def validateDestinationType (unicodeToLower : Char → Char) (val : Value) (key : String) :
    Outcome (List String × List GoError) :=
  match val with
  | .str s =>
    let v := stringsToLower unicodeToLower s
    if v = "http" ∨ v = "awslambda" then
      .ok ([], [])
    else
      .ok ([], [] ++ [GoError.errorf "%q not a valid value for %q" [val, .str key]])
  | _ => .panic

/-- The array `authKeys` of `resourceAPIExtensionGetAuthentication`. -/
def authKeys : List String := ["authorization_header", "azure_authentication"]

/-- Lines 281-306, `resourceAPIExtensionGetAuthentication`. -/
def resourceAPIExtensionGetAuthentication (destInput : GoMap) :
    Outcome (Option ExtensionHttpDestinationAuthentication) :=
  let count := authKeys.foldl
    (fun (count : Nat) key => if (mapIndex destInput key).isSome then count + 1 else count) 0
  if count > 1 then
    .error (.errorf "In the destination only one of the auth values should be definied: %q"
      [.list (authKeys.map Value.str)])
  else
    match mapIndex destInput "authorization_header" with
    | some authVal =>
      match authVal with
      | .str s => .ok (some (.authorizationHeader s))
      | _ => .panic
    | none =>
      match mapIndex destInput "azure_authentication" with
      | some authVal =>
        match authVal with
        | .str s => .ok (some (.azureFunctions s))
        | _ => .panic
      | none => .ok none

/-- Lines 257-279, `resourceAPIExtensionGetDestination`. -/
def resourceAPIExtensionGetDestination (unicodeToLower : Char → Char) (d : ResourceData) :
    Outcome Destination :=
  let input := d.new.destination
  match mapIndex input "type" with
  | some (.str t) =>
    let v := stringsToLower unicodeToLower t
    if v = "http" then
      match resourceAPIExtensionGetAuthentication input with
      | .error err => .error err
      | .panic => .panic
      | .ok auth =>
        match mapIndex input "url" with
        | some (.str url) => .ok (.http { Url := url, Authentication := some auth })
        | _ => .panic
    else if v = "awslambda" then
      match mapIndex input "arn" with
      | some (.str arn) =>
        match mapIndex input "access_key" with
        | some (.str accessKey) =>
          match mapIndex input "access_secret" with
          | some (.str accessSecret) =>
            .ok (.awsLambda { Arn := arn, AccessKey := accessKey, AccessSecret := accessSecret })
          | _ => .panic
        | _ => .panic
      | _ => .panic
    else
      .error (.errorf "Extension type %s not implemented" [.str t])
  | _ => .panic

/-- The loop of `resourceAPIExtensionGetTriggers` over the blocks still to read,
with the triggers appended so far. -/
def getTriggersLoop (expandStringArray : List Value → List String) :
    List Value → List ExtensionTrigger → Outcome (List ExtensionTrigger)
  | [], result => .ok result
  | raw :: rest, result =>
    match raw with
    | .map i =>
      match mapIndex i "resource_type_id" with
      | some (.str typeID) =>
        match mapIndex i "actions" with
        | some (.list items) =>
          let actions := (expandStringArray items).foldl (fun actions item => actions ++ [item]) []
          getTriggersLoop expandStringArray rest
            (result ++ [{ ResourceTypeId := typeID, Actions := actions }])
        | _ => .panic
      | _ => .panic
    | _ => .panic

/-- Lines 308-328, `resourceAPIExtensionGetTriggers`; `expandStringArray` is a
helper of the provider defined in another file. -/
def resourceAPIExtensionGetTriggers (expandStringArray : List Value → List String)
    (d : ResourceData) : Outcome (List ExtensionTrigger) :=
  getTriggersLoop expandStringArray d.new.trigger []

/-- Lines 162-192, `resourceAPIExtensionRead`: the resource data and the remote
state after the call, and the error returned (`ok ()` for nil). -/
def resourceAPIExtensionRead {σ : Type} (sdk : Sdk σ) (d : ResourceData) (s : σ) :
    ResourceData × σ × Outcome Unit :=
  match sdk.extensionGet d.id s with
  | (.error err, s1) =>
    match err with
    | .errorResponse statusCode _ =>
      if statusCode = 404 then (d.SetId "", s1, .ok ()) else (d, s1, .error err)
    | _ => (d, s1, .error err)
  | (.ok none, s1) => (d.SetId "", s1, .ok ())
  | (.ok (some extension), s1) =>
    let d1 := sdk.set d "version" (.int extension.Version)
    let d2 := sdk.set d1 "key" (.stringPtr extension.Key)
    let d3 := sdk.set d2 "destination" (.destination extension.Destination)
    let d4 := sdk.set d3 "trigger" (.triggers extension.Triggers)
    let d5 := sdk.set d4 "timeout_in_ms" (.intPtr extension.TimeoutInMs)
    (d5, s1, .ok ())

/-- Lines 197-231 of `resourceAPIExtensionUpdate`: the request `input` that the
handler builds before it calls the platform. -/
def resourceAPIExtensionUpdateInput (unicodeToLower : Char → Char) (expandStringArray : List Value → List String)
    (d : ResourceData) : Outcome ExtensionUpdate :=
  let actions0 : List ExtensionUpdateAction := []
  let actions1 :=
    if d.old.key ≠ d.new.key then actions0 ++ [.setKey (some d.new.key)] else actions0
  let afterTrigger : Outcome (List ExtensionUpdateAction) :=
    if d.old.trigger ≠ d.new.trigger then
      match resourceAPIExtensionGetTriggers expandStringArray d with
      | .ok triggers => .ok (actions1 ++ [.changeTriggers triggers])
      | .error err => .error err
      | .panic => .panic
    else .ok actions1
  match afterTrigger with
  | .error err => .error err
  | .panic => .panic
  | .ok actions2 =>
    let afterDestination : Outcome (List ExtensionUpdateAction) :=
      if d.old.destination ≠ d.new.destination then
        match resourceAPIExtensionGetDestination unicodeToLower d with
        | .ok destination => .ok (actions2 ++ [.changeDestination destination])
        | .error err => .error err
        | .panic => .panic
      else .ok actions2
    match afterDestination with
    | .error err => .error err
    | .panic => .panic
    | .ok actions3 =>
      let actions4 :=
        if d.old.timeout_in_ms ≠ d.new.timeout_in_ms then
          actions3 ++ [.setTimeoutInMs (some d.new.timeout_in_ms)]
        else actions3
      .ok { Version := d.new.version, Actions := actions4 }

/-- Lines 194-239, `resourceAPIExtensionUpdate`: the request is built, posted to
the platform under the id of the resource, and the resource is read again. -/
def resourceAPIExtensionUpdate {σ : Type} (unicodeToLower : Char → Char)
    (expandStringArray : List Value → List String) (sdk : Sdk σ) (d : ResourceData) (s : σ) :
    ResourceData × σ × Outcome Unit :=
  match resourceAPIExtensionUpdateInput unicodeToLower expandStringArray d with
  | .error err => (d, s, .error err)
  | .panic => (d, s, .panic)
  | .ok input =>
    match sdk.extensionUpdate d.id input s with
    | (.error err, s1) => (d, s1, .error err)
    | (.ok _, s1) => resourceAPIExtensionRead sdk d s1

/-! ## Configurations used as concrete inputs -/

/-- Attributes with nothing set: the zero value of every attribute. -/
def Attrs.zero : Attrs :=
  { key := "", destination := [], trigger := [], timeout_in_ms := 0, version := 0 }

/-- The resource data of a resource not yet created whose configuration holds
the destination map `m`. -/
def configOfDestination (m : GoMap) : ResourceData :=
  { id := "", old := Attrs.zero, new := { Attrs.zero with destination := m } }

/-- The configuration map `{type: "http", url: u, authorization_header: h}` that
declares the Http destination with URL `u` and header authentication `h`. -/
def httpHeaderConfig (u h : String) : GoMap :=
  [("type", .str "http"), ("url", .str u), ("authorization_header", .str h)]

/-- An AWS Lambda destination map that also carries both authentication keys,
with empty values. -/
def lambdaWithBothAuthKeys : GoMap :=
  [("type", .str "awslambda"), ("arn", .str "arn:aws:lambda:eu-west-1:1:function:f"),
   ("access_key", .str "AK"), ("access_secret", .str "AS"),
   ("authorization_header", .str ""), ("azure_authentication", .str "")]

/-- An Http destination map with both authentication keys, with empty values. -/
def httpWithBothAuthKeys : GoMap :=
  [("type", .str "HTTP"), ("url", .str "https://example.com"),
   ("authorization_header", .str ""), ("azure_authentication", .str "")]

/-- An Http destination map without authentication keys. -/
def httpWithoutAuth : GoMap :=
  [("type", .str "Http"), ("url", .str "https://example.com")]

/-- A trigger block of the configuration, with the shape the schema declares:
a string `resource_type_id` and a list of strings `actions`. -/
structure TriggerBlock where
  resource_type_id : String
  actions : List String
deriving DecidableEq

/-- The Go value under which the SDK hands a trigger block to the handlers. -/
def TriggerBlock.toValue (b : TriggerBlock) : Value :=
  .map [("resource_type_id", .str b.resource_type_id), ("actions", .list (b.actions.map Value.str))]

/-- The resource data of a resource not yet created whose configuration holds
the trigger blocks `blocks`. -/
def configOfTriggers (blocks : List TriggerBlock) : ResourceData :=
  { id := "", old := Attrs.zero,
    new := { Attrs.zero with trigger := blocks.map TriggerBlock.toValue } }

/-- An instance of the helper `expandStringArray` for the concrete inputs: a
string value is rendered as the string itself. -/
def expandStrings (input : List Value) : List String :=
  input.map fun v => match v with
    | .str s => s
    | _ => ""

/-- An SDK and platform client for the concrete inputs, without remote state:
`d.Set` leaves the data as it is and every request is answered with `r`. -/
def sdkAnswering (r : Except GoError (Option Extension)) : Sdk Unit :=
  { set := fun d _ _ => d
    extensionGet := fun _ s => (r, s)
    extensionUpdate := fun _ _ s => (r, s) }

/-- The resource data of the extension "ext-1" at version 3 whose key goes from
`key0` to `key1` and whose timeout goes from `timeout0` to `timeout1`, the
destination and the triggers staying as they are. -/
def changeOfKeyAndTimeout (key0 key1 : String) (timeout0 timeout1 : Int) : ResourceData :=
  { id := "ext-1"
    old := { key := key0, destination := httpWithoutAuth, trigger := [],
             timeout_in_ms := timeout0, version := 3 }
    new := { key := key1, destination := httpWithoutAuth, trigger := [],
             timeout_in_ms := timeout1, version := 3 } }

/-- The resource data of the extension "ext-1" at version 3 in which the four
fields change: the key from "a" to "b", the triggers from none to cart on
Create, the destination from no authentication to a header, the timeout from
100 to 250. -/
def changeOfAllFields : ResourceData :=
  { id := "ext-1"
    old := { key := "a", destination := httpWithoutAuth, trigger := [],
             timeout_in_ms := 100, version := 3 }
    new := { key := "b", destination := httpHeaderConfig "https://example.com" "Bearer x",
             trigger := [TriggerBlock.toValue ⟨"cart", ["Create"]⟩],
             timeout_in_ms := 250, version := 3 } }

/-- Following the specification of the update: one action for each changed
field among key, trigger, destination and timeout_in_ms, in this order, each
with the new value of its field, `triggers` and `destination` being the decoded
new triggers and destination. -/
def specUpdateActions (d : ResourceData) (triggers : List ExtensionTrigger)
    (destination : Destination) : List ExtensionUpdateAction :=
  (if d.old.key ≠ d.new.key then [.setKey (some d.new.key)] else []) ++
  (if d.old.trigger ≠ d.new.trigger then [.changeTriggers triggers] else []) ++
  (if d.old.destination ≠ d.new.destination then [.changeDestination destination] else []) ++
  (if d.old.timeout_in_ms ≠ d.new.timeout_in_ms then
    [.setTimeoutInMs (some d.new.timeout_in_ms)] else [])

/-- Following the specification of the update: the number of changed fields
among key, trigger, destination and timeout_in_ms. -/
def changedFieldCount (d : ResourceData) : Nat :=
  (if d.old.key ≠ d.new.key then 1 else 0) +
  (if d.old.trigger ≠ d.new.trigger then 1 else 0) +
  (if d.old.destination ≠ d.new.destination then 1 else 0) +
  (if d.old.timeout_in_ms ≠ d.new.timeout_in_ms then 1 else 0)

/-! ## Lemmas on the decoders -/

/-- With both authentication keys in the map the authentication decoder fails. -/
theorem getAuthentication_of_both (m : GoMap)
    (hA : (mapIndex m "authorization_header").isSome = true)
    (hB : (mapIndex m "azure_authentication").isSome = true) :
    resourceAPIExtensionGetAuthentication m =
      .error (.errorf "In the destination only one of the auth values should be definied: %q"
        [.list [.str "authorization_header", .str "azure_authentication"]]) := by
  simp [resourceAPIExtensionGetAuthentication, authKeys, hA, hB]

/-- With the header key alone the decoder gives the header variant. -/
theorem getAuthentication_of_header (m : GoMap) (h : String)
    (hA : mapIndex m "authorization_header" = some (.str h))
    (hB : mapIndex m "azure_authentication" = none) :
    resourceAPIExtensionGetAuthentication m = .ok (some (.authorizationHeader h)) := by
  simp [resourceAPIExtensionGetAuthentication, authKeys, hA, hB]

/-- With the Azure key alone the decoder gives the function-key variant. -/
theorem getAuthentication_of_azure (m : GoMap) (k : String)
    (hA : mapIndex m "authorization_header" = none)
    (hB : mapIndex m "azure_authentication" = some (.str k)) :
    resourceAPIExtensionGetAuthentication m = .ok (some (.azureFunctions k)) := by
  simp [resourceAPIExtensionGetAuthentication, authKeys, hA, hB]

/-- With neither key the decoder gives the nil interface. -/
theorem getAuthentication_of_neither (m : GoMap)
    (hA : mapIndex m "authorization_header" = none)
    (hB : mapIndex m "azure_authentication" = none) :
    resourceAPIExtensionGetAuthentication m = .ok none := by
  simp [resourceAPIExtensionGetAuthentication, authKeys, hA, hB]

/-- The only error of the authentication decoder is the one on both keys. -/
theorem getAuthentication_error (m : GoMap) (e : GoError)
    (h : resourceAPIExtensionGetAuthentication m = .error e) :
    e = .errorf "In the destination only one of the auth values should be definied: %q"
        [.list [.str "authorization_header", .str "azure_authentication"]] := by
  unfold resourceAPIExtensionGetAuthentication at h
  simp only [authKeys, List.map] at h
  split at h
  · exact (Outcome.error.inj h).symm
  · split at h
    · split at h <;> cases h
    · split at h
      · split at h <;> cases h
      · cases h

/-- On a type that lower-cases to http or awslambda the destination decoder
does not return the not-implemented error. -/
theorem getDestination_implemented (unicodeToLower : Char → Char) (d : ResourceData)
    (t : String) (htype : mapIndex d.new.destination "type" = some (.str t))
    (h : stringsToLower unicodeToLower t = "http" ∨ stringsToLower unicodeToLower t = "awslambda")
    (args : List Value) :
    resourceAPIExtensionGetDestination unicodeToLower d
      ≠ .error (.errorf "Extension type %s not implemented" args) := by
  unfold resourceAPIExtensionGetDestination
  simp only [htype]
  rcases h with h | h
  · simp only [h, if_true]
    cases hauth : resourceAPIExtensionGetAuthentication d.new.destination with
    | ok auth =>
      simp only []
      split <;> simp
    | error e =>
      have he := getAuthentication_error _ _ hauth
      subst he
      simp
    | panic => simp
  · have hne : ¬ (("awslambda" : String) = "http") := by decide
    simp only [h, hne, if_false, if_true]
    split
    · split
      · split <;> simp
      · simp
    · simp

/-- Appending the items one by one to the empty list copies the list. -/
theorem foldl_append_singleton (xs init : List String) :
    xs.foldl (fun actions item => actions ++ [item]) init = init ++ xs := by
  induction xs generalizing init with
  | nil => simp
  | cons x xs ih => simp [List.foldl, ih]

/-- The trigger loop on schema-shaped blocks appends one trigger for each
block, in order. -/
theorem getTriggersLoop_blocks (expandStringArray : List Value → List String)
    (blocks : List TriggerBlock) (result : List ExtensionTrigger) :
    getTriggersLoop expandStringArray (blocks.map TriggerBlock.toValue) result =
      .ok (result ++ blocks.map fun b =>
        { ResourceTypeId := b.resource_type_id,
          Actions := expandStringArray (b.actions.map Value.str) }) := by
  induction blocks generalizing result with
  | nil => simp [getTriggersLoop]
  | cons b bs ih =>
    simp [getTriggersLoop, TriggerBlock.toValue, mapIndex, foldl_append_singleton, ih]

/-! ## The properties -/

/-- C9. For a destination map in which exactly one of the keys
authorization_header and azure_authentication is present, with a string under
it, the authentication decoder returns no error: the header variant carrying
that string when the key is authorization_header, the function-key variant
carrying it when the key is azure_authentication. -/
theorem getAuthentication_exactly_one (m : GoMap) (v : String) :
    (mapIndex m "authorization_header" = some (.str v) →
      mapIndex m "azure_authentication" = none →
      resourceAPIExtensionGetAuthentication m = .ok (some (.authorizationHeader v))) ∧
    (mapIndex m "azure_authentication" = some (.str v) →
      mapIndex m "authorization_header" = none →
      resourceAPIExtensionGetAuthentication m = .ok (some (.azureFunctions v))) :=
  ⟨fun hA hB => getAuthentication_of_header m v hA hB,
   fun hB hA => getAuthentication_of_azure m v hA hB⟩

/-- C9 at the maps with the single entry authorization_header = "Basic abc" and
the single entry azure_authentication = "key-1". -/
theorem getAuthentication_exactly_one_witness :
    resourceAPIExtensionGetAuthentication [("authorization_header", .str "Basic abc")]
        = .ok (some (.authorizationHeader "Basic abc")) ∧
    resourceAPIExtensionGetAuthentication [("azure_authentication", .str "key-1")]
        = .ok (some (.azureFunctions "key-1")) :=
  ⟨(getAuthentication_exactly_one [("authorization_header", .str "Basic abc")] "Basic abc").1
      (by decide) (by decide),
   (getAuthentication_exactly_one [("azure_authentication", .str "key-1")] "key-1").2
      (by decide) (by decide)⟩

/-- C1, as amended. For a destination map that contains both keys
authorization_header and azure_authentication, whatever is stored under them,
and whose type is a string that does not lower-case to awslambda, the
destination decoder returns an error and no destination: the error on the two
keys when the type lower-cases to http, the not-implemented error otherwise. -/
theorem getDestination_both_auth_keys (unicodeToLower : Char → Char) (d : ResourceData)
    (t : String)
    (htype : mapIndex d.new.destination "type" = some (.str t))
    (hlambda : stringsToLower unicodeToLower t ≠ "awslambda")
    (hA : (mapIndex d.new.destination "authorization_header").isSome = true)
    (hB : (mapIndex d.new.destination "azure_authentication").isSome = true) :
    resourceAPIExtensionGetDestination unicodeToLower d =
      .error (if stringsToLower unicodeToLower t = "http" then
          .errorf "In the destination only one of the auth values should be definied: %q"
            [.list [.str "authorization_header", .str "azure_authentication"]]
        else .errorf "Extension type %s not implemented" [.str t]) := by
  unfold resourceAPIExtensionGetDestination
  simp only [htype]
  by_cases hhttp : stringsToLower unicodeToLower t = "http"
  · simp [hhttp, getAuthentication_of_both _ hA hB]
  · simp [hhttp, hlambda]

/-- C1 as amended, at an Http map (type written HTTP) with both keys set to the
empty string. -/
theorem getDestination_both_auth_keys_witness :
    resourceAPIExtensionGetDestination Char.toLower (configOfDestination httpWithBothAuthKeys) =
      .error (.errorf "In the destination only one of the auth values should be definied: %q"
        [.list [.str "authorization_header", .str "azure_authentication"]]) :=
  getDestination_both_auth_keys Char.toLower (configOfDestination httpWithBothAuthKeys) "HTTP"
    (by decide) (by decide) (by decide) (by decide)

/-- C1 as stated fails: a map of type awslambda that holds both keys
authorization_header and azure_authentication decodes without error, to the
AWSLambda destination. -/
theorem getDestination_both_auth_keys_awslambda :
    (mapIndex lambdaWithBothAuthKeys "authorization_header").isSome = true ∧
    (mapIndex lambdaWithBothAuthKeys "azure_authentication").isSome = true ∧
    resourceAPIExtensionGetDestination Char.toLower (configOfDestination lambdaWithBothAuthKeys) =
      .ok (.awsLambda { Arn := "arn:aws:lambda:eu-west-1:1:function:f",
                        AccessKey := "AK", AccessSecret := "AS" }) := by
  decide

/-- C4, as amended. For a destination map whose type lower-cases to http, with a
string url and neither authentication key, the destination decoder succeeds
with the Http destination of that url whose Authentication field is a pointer
to the nil authentication value (not a nil pointer), and the authentication
decoder returns the nil variant and no error. -/
theorem getDestination_http_no_auth (unicodeToLower : Char → Char) (d : ResourceData)
    (t u : String)
    (htype : mapIndex d.new.destination "type" = some (.str t))
    (hhttp : stringsToLower unicodeToLower t = "http")
    (hurl : mapIndex d.new.destination "url" = some (.str u))
    (hA : mapIndex d.new.destination "authorization_header" = none)
    (hB : mapIndex d.new.destination "azure_authentication" = none) :
    resourceAPIExtensionGetDestination unicodeToLower d
        = .ok (.http { Url := u, Authentication := some none }) ∧
    resourceAPIExtensionGetAuthentication d.new.destination = .ok none := by
  have hauth := getAuthentication_of_neither d.new.destination hA hB
  refine ⟨?_, hauth⟩
  unfold resourceAPIExtensionGetDestination
  simp [htype, hhttp, hurl, hauth]

/-- C4 as amended, at the map of type Http and url https://example.com. -/
theorem getDestination_http_no_auth_witness :
    resourceAPIExtensionGetDestination Char.toLower (configOfDestination httpWithoutAuth)
        = .ok (.http { Url := "https://example.com", Authentication := some none }) ∧
    resourceAPIExtensionGetAuthentication (configOfDestination httpWithoutAuth).new.destination
        = .ok none :=
  getDestination_http_no_auth Char.toLower (configOfDestination httpWithoutAuth) "Http"
    "https://example.com" (by decide) (by decide) (by decide) (by decide) (by decide)

/-- C4 as stated fails: on the map of type Http and url https://example.com,
which has neither authentication key, the Authentication field of the Http
destination returned is not nil: it is the address of the variable that holds
the nil authentication value. -/
theorem getDestination_http_no_auth_field_not_nil :
    resourceAPIExtensionGetDestination Char.toLower (configOfDestination httpWithoutAuth)
        ≠ .ok (.http { Url := "https://example.com", Authentication := none }) ∧
    resourceAPIExtensionGetDestination Char.toLower (configOfDestination httpWithoutAuth)
        = .ok (.http { Url := "https://example.com", Authentication := some none }) := by
  decide

/-- C8. Round trip: the configuration map that declares the Http destination
with URL u and header authentication h decodes, without error, to the Http
destination with URL u whose authentication is the header variant with header
value h, for a rune lowering that leaves the word http as it is. -/
theorem getDestination_http_header_roundtrip (unicodeToLower : Char → Char)
    (d : ResourceData) (u h : String)
    (hlower : stringsToLower unicodeToLower "http" = "http")
    (hd : d.new.destination = httpHeaderConfig u h) :
    resourceAPIExtensionGetDestination unicodeToLower d =
      .ok (.http { Url := u, Authentication := some (some (.authorizationHeader h)) }) := by
  have hauth : resourceAPIExtensionGetAuthentication (httpHeaderConfig u h)
      = .ok (some (.authorizationHeader h)) :=
    getAuthentication_of_header _ h (by simp [httpHeaderConfig, mapIndex])
      (by simp [httpHeaderConfig, mapIndex])
  have htype : mapIndex (httpHeaderConfig u h) "type" = some (.str "http") := by
    simp [httpHeaderConfig, mapIndex]
  have hurl : mapIndex (httpHeaderConfig u h) "url" = some (.str u) := by
    simp [httpHeaderConfig, mapIndex]
  unfold resourceAPIExtensionGetDestination
  simp [hd, htype, hlower, hurl, hauth]

/-- C8 at the URL https://example.com and the header value "Bearer x". -/
theorem getDestination_http_header_roundtrip_witness :
    resourceAPIExtensionGetDestination Char.toLower
        (configOfDestination (httpHeaderConfig "https://example.com" "Bearer x")) =
      .ok (.http { Url := "https://example.com",
                   Authentication := some (some (.authorizationHeader "Bearer x")) }) :=
  getDestination_http_header_roundtrip Char.toLower
    (configOfDestination (httpHeaderConfig "https://example.com" "Bearer x"))
    "https://example.com" "Bearer x" (by decide) rfl

/-- C10. For a destination map whose type lower-cases to awslambda and which
holds strings under arn, access_key and access_secret, the destination decoder
returns no error and the AWSLambda destination whose Arn, AccessKey and
AccessSecret are those three strings. -/
theorem getDestination_awslambda (unicodeToLower : Char → Char) (d : ResourceData)
    (t arn accessKey accessSecret : String)
    (htype : mapIndex d.new.destination "type" = some (.str t))
    (hlambda : stringsToLower unicodeToLower t = "awslambda")
    (harn : mapIndex d.new.destination "arn" = some (.str arn))
    (hkey : mapIndex d.new.destination "access_key" = some (.str accessKey))
    (hsecret : mapIndex d.new.destination "access_secret" = some (.str accessSecret)) :
    resourceAPIExtensionGetDestination unicodeToLower d =
      .ok (.awsLambda { Arn := arn, AccessKey := accessKey, AccessSecret := accessSecret }) := by
  unfold resourceAPIExtensionGetDestination
  simp [htype, hlambda, harn, hkey, hsecret]

/-- C10 at a map of type AwsLambda. -/
theorem getDestination_awslambda_witness :
    resourceAPIExtensionGetDestination Char.toLower
        (configOfDestination [("type", .str "AwsLambda"), ("arn", .str "arn:1"),
          ("access_key", .str "AK"), ("access_secret", .str "AS")]) =
      .ok (.awsLambda { Arn := "arn:1", AccessKey := "AK", AccessSecret := "AS" }) :=
  getDestination_awslambda Char.toLower _ "AwsLambda" "arn:1" "AK" "AS"
    (by decide) (by decide) (by decide) (by decide) (by decide)

/-- C5. For a destination map whose type is the string t: when t lower-cased is
neither http nor awslambda the destination decoder returns no destination and
the not-implemented error whose operand is the type value of the map, t itself;
when t lower-cased is http or awslambda it does not return a not-implemented
error; so the types on which validateDestinationType reports no error are
exactly those on which the decoder does not answer not-implemented. -/
theorem getDestination_not_implemented (unicodeToLower : Char → Char) (d : ResourceData)
    (t k : String) (htype : mapIndex d.new.destination "type" = some (.str t)) :
    (stringsToLower unicodeToLower t ≠ "http" → stringsToLower unicodeToLower t ≠ "awslambda" →
      resourceAPIExtensionGetDestination unicodeToLower d
        = .error (.errorf "Extension type %s not implemented" [.str t])) ∧
    (stringsToLower unicodeToLower t = "http" ∨ stringsToLower unicodeToLower t = "awslambda" →
      ∀ args, resourceAPIExtensionGetDestination unicodeToLower d
        ≠ .error (.errorf "Extension type %s not implemented" args)) ∧
    (validateDestinationType unicodeToLower (.str t) k = .ok ([], []) ↔
      ∀ args, resourceAPIExtensionGetDestination unicodeToLower d
        ≠ .error (.errorf "Extension type %s not implemented" args)) := by
  have hno : stringsToLower unicodeToLower t ≠ "http" →
      stringsToLower unicodeToLower t ≠ "awslambda" →
      resourceAPIExtensionGetDestination unicodeToLower d
        = .error (.errorf "Extension type %s not implemented" [.str t]) := by
    intro h1 h2
    unfold resourceAPIExtensionGetDestination
    simp [htype, h1, h2]
  refine ⟨hno, getDestination_implemented unicodeToLower d t htype, ?_⟩
  by_cases h : stringsToLower unicodeToLower t = "http" ∨
      stringsToLower unicodeToLower t = "awslambda"
  · constructor
    · intro _
      exact getDestination_implemented unicodeToLower d t htype h
    · intro _
      simp [validateDestinationType, h]
  · constructor
    · intro hv
      simp [validateDestinationType, h] at hv
    · intro hall
      exact absurd (hno (fun e => h (Or.inl e)) (fun e => h (Or.inr e))) (hall _)

/-- C5 at the type "ftp", which is not implemented, and at the type "HTTP",
which is. -/
theorem getDestination_not_implemented_witness :
    resourceAPIExtensionGetDestination Char.toLower (configOfDestination [("type", .str "ftp")])
        = .error (.errorf "Extension type %s not implemented" [.str "ftp"]) ∧
    ∀ args, resourceAPIExtensionGetDestination Char.toLower
        (configOfDestination httpWithBothAuthKeys)
        ≠ .error (.errorf "Extension type %s not implemented" args) :=
  ⟨(getDestination_not_implemented Char.toLower (configOfDestination [("type", .str "ftp")])
      "ftp" "type" (by decide)).1 (by decide) (by decide),
   (getDestination_not_implemented Char.toLower (configOfDestination httpWithBothAuthKeys)
      "HTTP" "type" (by decide)).2.1 (Or.inl (by decide))⟩

/-- C2. For every string s and field name k, validateDestinationType returns no
warnings; it returns no error when s lower-cased is http or awslambda, and
otherwise exactly one error, built from the format "%q not a valid value for
%q" with the operands s, as given and not lower-cased, and k. -/
theorem validateDestinationType_spec (unicodeToLower : Char → Char) (s k : String) :
    validateDestinationType unicodeToLower (.str s) k =
      .ok ([],
        if stringsToLower unicodeToLower s = "http" ∨
            stringsToLower unicodeToLower s = "awslambda" then []
        else [.errorf "%q not a valid value for %q" [.str s, .str k]]) := by
  unfold validateDestinationType
  by_cases h : stringsToLower unicodeToLower s = "http" ∨
      stringsToLower unicodeToLower s = "awslambda"
  · simp [h]
  · simp [h]

/-- The validation function at four inputs: HTTP and AwsLambda are accepted, ftp and the empty
string are reported with the value as given. -/
theorem validateDestinationType_examples :
    validateDestinationType Char.toLower (.str "HTTP") "type" = .ok ([], []) ∧
    validateDestinationType Char.toLower (.str "AwsLambda") "type" = .ok ([], []) ∧
    validateDestinationType Char.toLower (.str "FTP") "type"
      = .ok ([], [.errorf "%q not a valid value for %q" [.str "FTP", .str "type"]]) ∧
    validateDestinationType Char.toLower (.str "") "type"
      = .ok ([], [.errorf "%q not a valid value for %q" [.str "", .str "type"]]) := by
  decide

/-- C6. For every list of trigger blocks, when the helper expandStringArray
renders a list of string values as the list of those strings, the trigger
decoder returns one trigger for each block, in the order of the blocks: the
result has the length of the input and its i-th trigger has the
resource_type_id of the i-th block and the actions of that block in their
order. -/
theorem getTriggers_preserves_order (expandStringArray : List Value → List String)
    (d : ResourceData) (blocks : List TriggerBlock)
    (hexpand : ∀ ss : List String, expandStringArray (ss.map Value.str) = ss)
    (hd : d.new.trigger = blocks.map TriggerBlock.toValue) :
    resourceAPIExtensionGetTriggers expandStringArray d =
      .ok (blocks.map fun b =>
        { ResourceTypeId := b.resource_type_id, Actions := b.actions }) := by
  unfold resourceAPIExtensionGetTriggers
  rw [hd, getTriggersLoop_blocks]
  simp [hexpand]

/-- C6 at the blocks cart with the action Create and order with the action
Update: cart comes first, order second. -/
theorem getTriggers_preserves_order_witness :
    resourceAPIExtensionGetTriggers expandStrings
        (configOfTriggers [⟨"cart", ["Create"]⟩, ⟨"order", ["Update"]⟩]) =
      .ok [{ ResourceTypeId := "cart", Actions := ["Create"] },
           { ResourceTypeId := "order", Actions := ["Update"] }] :=
  getTriggers_preserves_order expandStrings
    (configOfTriggers [⟨"cart", ["Create"]⟩, ⟨"order", ["Update"]⟩])
    [⟨"cart", ["Create"]⟩, ⟨"order", ["Update"]⟩]
    (fun ss => by simp [expandStrings, Function.comp_def]) rfl

/-- C7. When the remote get answers with an error: if the error is a platform
error response of status 404, resourceAPIExtensionRead sets the id of the
resource to the empty string, changes nothing else and returns no error; if it
is any other error, resourceAPIExtensionRead returns that same error and leaves
the id and the attributes of the resource as they were. -/
theorem read_on_remote_error {σ : Type} (sdk : Sdk σ) (d : ResourceData) (s s1 : σ)
    (err : GoError) (hget : sdk.extensionGet d.id s = (.error err, s1)) :
    ((∃ message, err = .errorResponse 404 message) →
      resourceAPIExtensionRead sdk d s = ({ d with id := "" }, s1, .ok ())) ∧
    ((∀ message, err ≠ .errorResponse 404 message) →
      resourceAPIExtensionRead sdk d s = (d, s1, .error err)) := by
  unfold resourceAPIExtensionRead
  rw [hget]
  constructor
  · rintro ⟨message, rfl⟩
    simp [ResourceData.SetId]
  · intro hne
    cases err with
    | errorf format args => rfl
    | other message => rfl
    | errorResponse statusCode message =>
      have hcode : statusCode ≠ 404 := fun h => hne message (by rw [h])
      simp [hcode]

/-- C7 at the resource "ext-1": a 404 response clears the id, a 500 response
and an error of another type are returned with the resource untouched. -/
theorem read_on_remote_error_witness :
    resourceAPIExtensionRead (sdkAnswering (.error (.errorResponse 404 "Not Found")))
        (changeOfKeyAndTimeout "a" "a" 100 100) ()
      = ({ changeOfKeyAndTimeout "a" "a" 100 100 with id := "" }, (), .ok ()) ∧
    resourceAPIExtensionRead (sdkAnswering (.error (.errorResponse 500 "Internal")))
        (changeOfKeyAndTimeout "a" "a" 100 100) ()
      = (changeOfKeyAndTimeout "a" "a" 100 100, (), .error (.errorResponse 500 "Internal")) ∧
    resourceAPIExtensionRead (sdkAnswering (.error (.other "connection refused")))
        (changeOfKeyAndTimeout "a" "a" 100 100) ()
      = (changeOfKeyAndTimeout "a" "a" 100 100, (), .error (.other "connection refused")) :=
  ⟨(read_on_remote_error (sdkAnswering (.error (.errorResponse 404 "Not Found")))
      (changeOfKeyAndTimeout "a" "a" 100 100) () () _ rfl).1 ⟨"Not Found", rfl⟩,
   (read_on_remote_error (sdkAnswering (.error (.errorResponse 500 "Internal")))
      (changeOfKeyAndTimeout "a" "a" 100 100) () () _ rfl).2
      (fun _ h => absurd (GoError.errorResponse.inj h).1 (by decide)),
   (read_on_remote_error (sdkAnswering (.error (.other "connection refused")))
      (changeOfKeyAndTimeout "a" "a" 100 100) () () _ rfl).2 (by simp)⟩

/-- C3. For resource data in which the new triggers, when changed, decode to
triggers and the new destination, when changed, decodes without error to
destination: the request built by resourceAPIExtensionUpdate carries the known
version and the action list of the specification, one action for each changed
field among key, trigger, destination and timeout_in_ms, with the new value, in
the order set-key, change-triggers, change-destination, set-timeout, and none
for an unchanged field; the length of the list is the number of changed
fields; and the handler posts this request under the id of the resource, then
reads the resource again. -/
theorem update_actions {σ : Type} (unicodeToLower : Char → Char)
    (expandStringArray : List Value → List String) (sdk : Sdk σ) (d : ResourceData) (s : σ)
    (triggers : List ExtensionTrigger) (destination : Destination)
    (htriggers : d.old.trigger ≠ d.new.trigger →
      resourceAPIExtensionGetTriggers expandStringArray d = .ok triggers)
    (hdestination : d.old.destination ≠ d.new.destination →
      resourceAPIExtensionGetDestination unicodeToLower d = .ok destination) :
    resourceAPIExtensionUpdateInput unicodeToLower expandStringArray d =
      .ok { Version := d.new.version, Actions := specUpdateActions d triggers destination } ∧
    (specUpdateActions d triggers destination).length = changedFieldCount d ∧
    resourceAPIExtensionUpdate unicodeToLower expandStringArray sdk d s =
      (match sdk.extensionUpdate d.id
          { Version := d.new.version, Actions := specUpdateActions d triggers destination } s with
        | (.error err, s1) => (d, s1, .error err)
        | (.ok _, s1) => resourceAPIExtensionRead sdk d s1) := by
  have hinput : resourceAPIExtensionUpdateInput unicodeToLower expandStringArray d =
      .ok { Version := d.new.version, Actions := specUpdateActions d triggers destination } := by
    unfold resourceAPIExtensionUpdateInput specUpdateActions
    by_cases hk : d.old.key = d.new.key <;>
    by_cases ht : d.old.trigger = d.new.trigger <;>
    by_cases hd : d.old.destination = d.new.destination <;>
    by_cases hm : d.old.timeout_in_ms = d.new.timeout_in_ms <;>
    simp [hk, ht, hd, hm, htriggers, hdestination]
  refine ⟨hinput, ?_, ?_⟩
  · unfold specUpdateActions changedFieldCount
    by_cases hk : d.old.key = d.new.key <;>
    by_cases ht : d.old.trigger = d.new.trigger <;>
    by_cases hd : d.old.destination = d.new.destination <;>
    by_cases hm : d.old.timeout_in_ms = d.new.timeout_in_ms <;>
    simp [hk, ht, hd, hm]
  · unfold resourceAPIExtensionUpdate
    rw [hinput]

/-- C3 at the two examples of the specification: when only the key changes,
from "a" to "b", the request holds the single action set-key "b"; when the key
and the timeout both change, it holds set-key and then set-timeout. -/
theorem update_actions_witness :
    resourceAPIExtensionUpdateInput Char.toLower expandStrings
        (changeOfKeyAndTimeout "a" "b" 100 100)
      = .ok { Version := 3, Actions := [.setKey (some "b")] } ∧
    resourceAPIExtensionUpdateInput Char.toLower expandStrings
        (changeOfKeyAndTimeout "a" "b" 100 250)
      = .ok { Version := 3, Actions := [.setKey (some "b"), .setTimeoutInMs (some 250)] } ∧
    resourceAPIExtensionUpdateInput Char.toLower expandStrings changeOfAllFields
      = .ok { Version := 3, Actions :=
          [.setKey (some "b"),
           .changeTriggers [{ ResourceTypeId := "cart", Actions := ["Create"] }],
           .changeDestination (.http
             { Url := "https://example.com",
               Authentication := some (some (.authorizationHeader "Bearer x")) }),
           .setTimeoutInMs (some 250)] } :=
  ⟨(update_actions Char.toLower expandStrings (sdkAnswering (.ok none))
      (changeOfKeyAndTimeout "a" "b" 100 100) () [] (.http ⟨"", none⟩)
      (fun h => absurd rfl h) (fun h => absurd rfl h)).1,
   (update_actions Char.toLower expandStrings (sdkAnswering (.ok none))
      (changeOfKeyAndTimeout "a" "b" 100 250) () [] (.http ⟨"", none⟩)
      (fun h => absurd rfl h) (fun h => absurd rfl h)).1,
   (update_actions Char.toLower expandStrings (sdkAnswering (.ok none))
      changeOfAllFields () [{ ResourceTypeId := "cart", Actions := ["Create"] }]
      (.http { Url := "https://example.com",
               Authentication := some (some (.authorizationHeader "Bearer x")) })
      (fun _ => by decide) (fun _ => by decide)).1⟩

end ApiExtension
